import Mathlib

/-!
Verification of the grid-alignment / temporal-normalization core of the
DeepSeepNet repository (aoi_videomaker_V3.py, scripts_timeseries/pad_geotiffs.py,
scripts_timeseries/aoi_videomaker_V2.py).

Floating-point values are modelled as exact rationals.  NaN ("nodata") cells are
modelled as `none : Option ℚ`.  The one place where IEEE special values drive
control flow is the bootstrap border computation of the PNG conversion loop:
`int(x)` raises `ValueError` when `x` is NaN, and the border expression is NaN
exactly when `vmax - vmin = 0` (its numerator `np.clip(med, vmin, vmax) - vmin`
is then exactly `0`, so the quotient is `0/0`); this is modelled by an explicit
`vmax - vmin = 0` test producing `Except.error`.
-/

namespace DeepSeepNet

/-- exceptions raised by the Python runtime in the modelled fragments -/
inductive PyExc where
  | valueError : PyExc
deriving DecidableEq

/-- np.clip(v, lo, hi) computes minimum(maximum(v, lo), hi) -/
def npClip (v lo hi : ℚ) : ℚ := min (max v lo) hi

/-- Python int() applied to a float: truncation toward zero -/
def pyTrunc (x : ℚ) : ℤ := if 0 ≤ x then ⌊x⌋ else ⌈x⌉

/-- numpy .astype(np.uint8) on a float: truncate toward zero, reduce modulo 256
    (exact for values in [0, 255], the range produced by the scaling below) -/
def castUint8 (x : ℚ) : ℤ := pyTrunc x % 256

/-- Modelled from the spec: "rounding to the nearest integer".  Ties are rounded
    up; no input at which this definition is used below is a tie, so the
    tie-breaking convention is immaterial. -/
def specRoundNearest (x : ℚ) : ℤ := ⌊x + 1 / 2⌋

/-- Python round() as used for the grid pixel dimensions.  Python rounds ties to
    even, but in `build_reference_grid` the argument is an exact integer (a
    difference of multiples of the resolution divided by the resolution), where
    every rounding convention agrees. -/
def pyRound (x : ℚ) : ℤ := ⌊x + 1 / 2⌋

/-- per-pixel scaling of one ocean_valid value, aoi_videomaker_V3.py lines
    211-212: `((np.clip(valid, vmin, vmax) - vmin) / (vmax - vmin) * 255)
    .astype(np.uint8)` applied elementwise -/
def oceanByte (v vmin vmax : ℚ) : ℤ :=
  castUint8 ((npClip v vmin vmax - vmin) / (vmax - vmin) * 255)

/-- np.median: sort the values and take the middle element, or the mean of the
    two middle elements for an even count.  The empty case (numpy would produce
    NaN) is unreachable in the code behind the `if valid.size else 0` guard. -/
def npMedian (s : Multiset ℚ) : ℚ :=
  let l := s.sort (· ≤ ·)
  let n := l.length
  if n % 2 = 1 then l.getD (n / 2) 0
  else (l.getD (n / 2 - 1) 0 + l.getD (n / 2) 0) / 2

/-- np.percentile with numpy's default linear interpolation: on the sorted data
    `a` of length `n`, with `h = q / 100 * (n - 1)`, the result is
    `a[⌊h⌋] + (h - ⌊h⌋) * (a[⌈h⌉] - a[⌊h⌋])`.  For `q ∈ [0, 100]` both indices
    lie in range, so the `getD` default is never read. -/
def npPercentile (s : Multiset ℚ) (q : ℚ) : ℚ :=
  let l := s.sort (· ≤ ·)
  let n := l.length
  if n = 0 then 0
  else
    let h : ℚ := q / 100 * ((n : ℚ) - 1)
    let xb := l.getD (⌊h⌋.toNat) 0
    let xa := l.getD (⌈h⌉.toNat) 0
    xb + (h - (⌊h⌋ : ℚ)) * (xa - xb)

/-- bounding box of one scene in map units (rasterio `src.bounds`) -/
structure SceneBounds where
  left : ℚ
  bottom : ℚ
  right : ℚ
  top : ℚ

/-- Python min() over a list; the code only applies it to nonempty lists -/
def listMin : List ℚ → ℚ
  | [] => 0
  | a :: l => l.foldl min a

/-- Python max() over a list; the code only applies it to nonempty lists -/
def listMax : List ℚ → ℚ
  | [] => 0
  | a :: l => l.foldl max a

/-- the snapped reference grid: extent and pixel dimensions -/
structure RefGrid where
  min_left : ℚ
  min_bottom : ℚ
  max_right : ℚ
  max_top : ℚ
  width : ℤ
  height : ℤ

/-- build_reference_grid (pad_geotiffs.py lines 36-65; the V3 variant at
    aoi_videomaker_V3.py lines 52-72 computes the same floors and ceilings via
    Python floor division): snap the union of all bounds outward to multiples of
    the resolution. -/
def build_reference_grid (infos : List SceneBounds) (resolution : ℚ) : RefGrid :=
  let min_left := ((⌊listMin (infos.map SceneBounds.left) / resolution⌋ : ℤ) : ℚ) * resolution
  let max_top := ((⌈listMax (infos.map SceneBounds.top) / resolution⌉ : ℤ) : ℚ) * resolution
  let max_right := ((⌈listMax (infos.map SceneBounds.right) / resolution⌉ : ℤ) : ℚ) * resolution
  let min_bottom := ((⌊listMin (infos.map SceneBounds.bottom) / resolution⌋ : ℤ) : ℚ) * resolution
  { min_left := min_left
    min_bottom := min_bottom
    max_right := max_right
    max_top := max_top
    width := pyRound ((max_right - min_left) / resolution)
    height := pyRound ((max_top - min_bottom) / resolution) }

/-- a single-band raster: pixel dimensions and data indexed (row, col).
    rasterio reads a (bands, rows, cols) cube; the band axis never affects the
    modelled control flow (both sides of the copy use the full band axis). -/
structure Raster where
  h : ℕ
  w : ℕ
  data : ℕ → ℕ → ℚ

/-- Python slice normalization for a[start:stop] on an axis of length n:
    a negative index counts from the end, then both ends are clamped into
    [0, n].  Returns the normalized start and the slice length. -/
def pySlice (start stop : ℤ) (n : ℕ) : ℕ × ℕ :=
  let s : ℤ := if start < 0 then max (start + n) 0 else min start n
  let e : ℤ := if stop < 0 then max (stop + n) 0 else min stop n
  (s.toNat, (e - s).toNat)

/-- pad_geotiffs.py lines 79 and 81: `col_off = (left - ref_left) / px;
    col_i = int(math.floor(col_off))` -/
def pad_col_offset (src_left ref_left px : ℚ) : ℤ := ⌊(src_left - ref_left) / px⌋

/-- pad_geotiffs.py lines 80 and 82: `row_off = (ref_top - top) / py;
    row_i = int(math.floor(row_off))` -/
def pad_row_offset (ref_top src_top py : ℚ) : ℤ := ⌊(ref_top - src_top) / py⌋

/-- pad_to_ref (pad_geotiffs.py lines 68-109): place the source window into a
    canvas of the target size prefilled with nodata.  numpy assignment of one
    sliced block into another succeeds when, per axis, the source slice length
    equals the destination slice length or is 1 (broadcast); otherwise it
    raises ValueError ("could not broadcast input array"). -/
def pad_to_ref (src : Raster) (src_left src_top px py ref_left ref_top : ℚ)
    (tw th : ℕ) (nodata : ℚ) : Except PyExc Raster :=
  let colI := pad_col_offset src_left ref_left px
  let rowI := pad_row_offset ref_top src_top py
  let dstColStart := max colI 0
  let dstRowStart := max rowI 0
  let dstColEnd := min (colI + (src.w : ℤ)) (tw : ℤ)
  let dstRowEnd := min (rowI + (src.h : ℤ)) (th : ℤ)
  let srcColStart := max 0 (-colI)
  let srcRowStart := max 0 (-rowI)
  let srcColEnd := srcColStart + (dstColEnd - dstColStart)
  let srcRowEnd := srcRowStart + (dstRowEnd - dstRowStart)
  let dr := pySlice dstRowStart dstRowEnd th
  let dc := pySlice dstColStart dstColEnd tw
  let sr := pySlice srcRowStart srcRowEnd src.h
  let sc := pySlice srcColStart srcColEnd src.w
  if (sr.2 = dr.2 ∨ sr.2 = 1) ∧ (sc.2 = dc.2 ∨ sc.2 = 1) then
    .ok { h := th, w := tw
          data := fun r c =>
            if dr.1 ≤ r ∧ r < dr.1 + dr.2 ∧ dc.1 ≤ c ∧ c < dc.1 + dc.2 then
              src.data (sr.1 + (if sr.2 = 1 then 0 else r - dr.1))
                       (sc.1 + (if sc.2 = 1 then 0 else c - dc.1))
            else nodata }
  else .error PyExc.valueError

section Frames

variable {ι : Type} [Fintype ι]

/-- mask_o (aoi_videomaker_V3.py line 207): ocean_valid pixels - not NaN, and
    landmask absent or equal to 0 at the pixel -/
def mask_o (arr : ι → Option ℚ) (lm : Option (ι → ℤ)) (p : ι) : Bool :=
  (arr p).isSome && (match lm with | none => true | some m => m p == 0)

/-- mask_b (aoi_videomaker_V3.py line 208): NaN pixels with landmask absent or
    equal to 0 at the pixel -/
def mask_b (arr : ι → Option ℚ) (lm : Option (ι → ℤ)) (p : ι) : Bool :=
  (arr p).isNone && (match lm with | none => true | some m => m p == 0)

/-- statistics mask (aoi_videomaker_V3.py line 186): not NaN and, when a
    landmask is present, landmask equal to 1 at the pixel -/
def statsMask (arr : ι → Option ℚ) (lm : Option (ι → ℤ)) (p : ι) : Bool :=
  match lm with
  | none => (arr p).isSome
  | some m => (arr p).isSome && (m p == 1)

/-- the values one scene contributes to the percentile statistics
    (aoi_videomaker_V3.py line 188: `vals.append(arr[mask])`) -/
def statsVals (arr : ι → Option ℚ) (lm : Option (ι → ℤ)) : Multiset ℚ :=
  Multiset.filterMap (fun p => if statsMask arr lm p then arr p else none) Finset.univ.val

/-- the values pooled over the whole series (aoi_videomaker_V3.py lines
    182-191).  The `np.any(mask)` guard at line 187 only skips appending empty
    per-scene arrays, which does not change the pooled population. -/
def pooledVals (frames : List (ι → Option ℚ)) (lm : Option (ι → ℤ)) : Multiset ℚ :=
  (frames.map (fun f => statsVals f lm)).sum

/-- valid = arr[mask_o] (aoi_videomaker_V3.py line 210), as a multiset -/
def validVals (arr : ι → Option ℚ) (lm : Option (ι → ℤ)) : Multiset ℚ :=
  Multiset.filterMap (fun p => if mask_o arr lm p then arr p else none) Finset.univ.val

/-- the one-time bootstrap border value (aoi_videomaker_V3.py lines 216-217):
    `int(((np.clip(np.median(valid) if valid.size else 0, vmin, vmax) - vmin)
    / (vmax - vmin)) * 255)` -/
def bootstrapBorder (arr : ι → Option ℚ) (lm : Option (ι → ℤ)) (vmin vmax : ℚ) : ℤ :=
  let med := if validVals arr lm = 0 then 0 else npMedian (validVals arr lm)
  pyTrunc ((npClip med vmin vmax - vmin) / (vmax - vmin) * 255)

/-- one iteration of the PNG conversion loop (aoi_videomaker_V3.py lines
    201-221), without the file I/O: scale the ocean_valid pixels, fill the
    mask_b pixels from the previous frame when one exists and otherwise from
    the bootstrap border value; every other pixel keeps the zero the canvas was
    initialized with.  When `vmax - vmin = 0` and no previous frame exists, the
    border expression is `int(NaN)`, which raises ValueError (see the file
    comment). -/
def convertFrame (arr : ι → Option ℚ) (lm : Option (ι → ℤ)) (vmin vmax : ℚ)
    (prev : Option (ι → ℤ)) : Except PyExc (ι → ℤ) :=
  match prev with
  | some pr =>
    .ok fun p => if mask_o arr lm p then oceanByte ((arr p).getD 0) vmin vmax
      else if mask_b arr lm p then pr p else 0
  | none =>
    if vmax - vmin = 0 then .error PyExc.valueError
    else
      .ok fun p => if mask_o arr lm p then oceanByte ((arr p).getD 0) vmin vmax
        else if mask_b arr lm p then bootstrapBorder arr lm vmin vmax else 0

/-- the sequential loop over the chronologically sorted files
    (aoi_videomaker_V3.py lines 199-221): `prev` starts as None and is replaced
    by every produced frame; an exception aborts the whole run. -/
def processSeriesGo (lm : Option (ι → ℤ)) (vmin vmax : ℚ) :
    List (ι → Option ℚ) → Option (ι → ℤ) → Except PyExc (List (ι → ℤ))
  | [], _ => .ok []
  | f :: fs, prev =>
    match convertFrame f lm vmin vmax prev with
    | .error e => .error e
    | .ok out =>
      match processSeriesGo lm vmin vmax fs (some out) with
      | .error e => .error e
      | .ok outs => .ok (out :: outs)

/-- the whole frame-normalization pass of convert_geotiffs_to_pngs -/
def processSeries (frames : List (ι → Option ℚ)) (lm : Option (ι → ℤ))
    (vmin vmax : ℚ) : Except PyExc (List (ι → ℤ)) :=
  processSeriesGo lm vmin vmax frames none

end Frames

/-! ## Helper lemmas -/

theorem npClip_le_right {v lo hi : ℚ} : npClip v lo hi ≤ hi := min_le_right _ _

theorem le_npClip {v lo hi : ℚ} (h : lo ≤ hi) : lo ≤ npClip v lo hi :=
  le_min (le_max_right _ _) h

theorem npClip_mono {v v' lo hi : ℚ} (h : v ≤ v') : npClip v lo hi ≤ npClip v' lo hi :=
  min_le_min (max_le_max h le_rfl) le_rfl

theorem foldl_min_le_init (l : List ℚ) (a : ℚ) : l.foldl min a ≤ a := by
  induction l generalizing a with
  | nil => exact le_refl a
  | cons b t ih => exact (ih (min a b)).trans (min_le_left a b)

theorem foldl_min_le_mem {x : ℚ} (l : List ℚ) (a : ℚ) (hx : x ∈ l) :
    l.foldl min a ≤ x := by
  induction l generalizing a with
  | nil => cases hx
  | cons b t ih =>
    rcases List.mem_cons.mp hx with h | h
    · subst h
      exact (foldl_min_le_init t (min a x)).trans (min_le_right a x)
    · exact ih _ h

theorem init_le_foldl_max (l : List ℚ) (a : ℚ) : a ≤ l.foldl max a := by
  induction l generalizing a with
  | nil => exact le_refl a
  | cons b t ih => exact (le_max_left a b).trans (ih (max a b))

theorem mem_le_foldl_max {x : ℚ} (l : List ℚ) (a : ℚ) (hx : x ∈ l) :
    x ≤ l.foldl max a := by
  induction l generalizing a with
  | nil => cases hx
  | cons b t ih =>
    rcases List.mem_cons.mp hx with h | h
    · subst h
      exact (le_max_right a x).trans (init_le_foldl_max t (max a x))
    · exact ih _ h

theorem listMin_le_of_mem {x : ℚ} {l : List ℚ} (hx : x ∈ l) : listMin l ≤ x := by
  cases l with
  | nil => cases hx
  | cons a t =>
    rcases List.mem_cons.mp hx with h | h
    · subst h
      exact foldl_min_le_init t x
    · exact foldl_min_le_mem t a h

theorem le_listMax_of_mem {x : ℚ} {l : List ℚ} (hx : x ∈ l) : x ≤ listMax l := by
  cases l with
  | nil => cases hx
  | cons a t =>
    rcases List.mem_cons.mp hx with h | h
    · subst h
      exact init_le_foldl_max t x
    · exact mem_le_foldl_max t a h

theorem oceanByte_eq_floor {v vmin vmax : ℚ} (h : vmin < vmax) :
    oceanByte v vmin vmax = ⌊(npClip v vmin vmax - vmin) / (vmax - vmin) * 255⌋ := by
  have hd : (0 : ℚ) < vmax - vmin := sub_pos.mpr h
  have hx0 : 0 ≤ (npClip v vmin vmax - vmin) / (vmax - vmin) * 255 :=
    mul_nonneg (div_nonneg (sub_nonneg.mpr (le_npClip h.le)) hd.le) (by norm_num)
  have hx255 : (npClip v vmin vmax - vmin) / (vmax - vmin) * 255 ≤ 255 := by
    have h1 : (npClip v vmin vmax - vmin) / (vmax - vmin) ≤ 1 := by
      rw [div_le_one hd]
      exact sub_le_sub_right npClip_le_right _
    calc (npClip v vmin vmax - vmin) / (vmax - vmin) * 255 ≤ 1 * 255 :=
          mul_le_mul_of_nonneg_right h1 (by norm_num)
      _ = 255 := one_mul _
  have hf0 : 0 ≤ ⌊(npClip v vmin vmax - vmin) / (vmax - vmin) * 255⌋ :=
    Int.floor_nonneg.mpr hx0
  have hf255 : ⌊(npClip v vmin vmax - vmin) / (vmax - vmin) * 255⌋ ≤ 255 := by
    have := Int.floor_le_floor (α := ℚ) hx255
    simpa using this
  simp only [oceanByte, castUint8, pyTrunc, if_pos hx0]
  exact Int.emod_eq_of_lt hf0 (by omega)

/-! ## Claims C5, C6, C7, C8, C2, C3, C4 -/

/-- C5 counterexample: the code truncates the scaled value with
    `.astype(np.uint8)`: at `v = 2`, `vmin = 0`, `vmax = 7` the scaled value is
    `510/7 ≈ 72.857`, the produced byte is `72`, while rounding to the nearest
    integer — what the claim states — gives `73`. -/
theorem C5_counterexample :
    oceanByte 2 0 7 = 72 ∧
      specRoundNearest ((npClip 2 0 7 - 0) / (7 - 0) * 255) = 73 ∧
      oceanByte 2 0 7 ≠ specRoundNearest ((npClip 2 0 7 - 0) / (7 - 0) * 255) := by
  norm_num [oceanByte, castUint8, pyTrunc, npClip, min_def, max_def, specRoundNearest]

/-- C5 (amended): for every ocean_valid value, when `vmin < vmax`, the output
    byte is the scaled-and-clipped value truncated downward (floor), not
    rounded to the nearest integer. -/
theorem C5_scaling_truncates (v vmin vmax : ℚ) (h : vmin < vmax) :
    oceanByte v vmin vmax = ⌊(npClip v vmin vmax - vmin) / (vmax - vmin) * 255⌋ :=
  oceanByte_eq_floor h

/-- C5 witness: the amended statement evaluated at `v = 2`, `vmin = 0`,
    `vmax = 7`. -/
theorem C5_scaling_truncates_witness :
    (0 : ℚ) < 7 ∧ oceanByte 2 0 7 = ⌊(npClip 2 0 7 - 0) / (7 - 0) * 255⌋ :=
  ⟨by norm_num, C5_scaling_truncates 2 0 7 (by norm_num)⟩

/-- C6: the byte scaling is monotone: for ocean_valid values
    `vmin ≤ v1 < v2 ≤ vmax` with `vmin < vmax`, the byte for `v2` is never
    strictly smaller than the byte for `v1`. -/
theorem C6_scaling_monotone (v1 v2 vmin vmax : ℚ) (h : vmin < vmax)
    (h1 : vmin ≤ v1) (h2 : v2 ≤ vmax) (h12 : v1 < v2) :
    oceanByte v1 vmin vmax ≤ oceanByte v2 vmin vmax := by
  rw [oceanByte_eq_floor h, oceanByte_eq_floor h]
  apply Int.floor_le_floor
  apply mul_le_mul_of_nonneg_right _ (by norm_num : (0 : ℚ) ≤ 255)
  have hd : (0 : ℚ) < vmax - vmin := sub_pos.mpr h
  exact (div_le_div_iff_of_pos_right hd).mpr (sub_le_sub_right (npClip_mono h12.le) _)

/-- C6 witness: the statement evaluated at `v1 = 1`, `v2 = 2`, `vmin = 0`,
    `vmax = 7`. -/
theorem C6_scaling_monotone_witness :
    ((0 : ℚ) < 7 ∧ (0 : ℚ) ≤ 1 ∧ (2 : ℚ) ≤ 7 ∧ (1 : ℚ) < 2) ∧
      oceanByte 1 0 7 ≤ oceanByte 2 0 7 :=
  ⟨⟨by norm_num, by norm_num, by norm_num, by norm_num⟩,
    C6_scaling_monotone 1 2 0 7 (by norm_num) (by norm_num) (by norm_num) (by norm_num)⟩

/-- C7 counterexample: the code computes the column offset with
    `int(math.floor(col_off))`, not `round`: for a source at `left = 110` on a
    grid with origin `0` and resolution `40`, `col_off = 2.75`, the code uses
    `2` while rounding to the nearest integer — what the claim states —
    gives `3`. -/
theorem C7_counterexample :
    pad_col_offset 110 0 40 = 2 ∧ specRoundNearest ((110 - 0) / 40) = 3 ∧
      pad_col_offset 110 0 40 ≠ specRoundNearest ((110 - 0) / 40) := by
  norm_num [pad_col_offset, specRoundNearest]

/-- C7 (amended): the integer pixel offsets used by the exact-copy path are the
    floors of `(src_left - grid_origin_x)/resolution` and
    `(grid_top - src_top)/resolution`: each offset is the unique integer `k`
    with `k ≤ offset < k + 1`, not the nearest integer. -/
theorem C7_offsets_are_floors (src_left ref_left px src_top ref_top py : ℚ) :
    (((pad_col_offset src_left ref_left px : ℤ) : ℚ) ≤ (src_left - ref_left) / px ∧
      (src_left - ref_left) / px < ((pad_col_offset src_left ref_left px : ℤ) : ℚ) + 1) ∧
    (((pad_row_offset ref_top src_top py : ℤ) : ℚ) ≤ (ref_top - src_top) / py ∧
      (ref_top - src_top) / py < ((pad_row_offset ref_top src_top py : ℤ) : ℚ) + 1) := by
  simp only [pad_col_offset, pad_row_offset]
  exact ⟨⟨Int.floor_le _, Int.lt_floor_add_one _⟩,
    ⟨Int.floor_le _, Int.lt_floor_add_one _⟩⟩

/-- C8: evaluating the exact-copy alignment at a scene wholly outside the grid.
    A 5×5 source with `left = 480`, `top = 400` at resolution 40 lies entirely
    to the right of the 10×10 grid with origin `x = 0`, top `y = 400` (grid
    x-extent [0, 400], source x-extent [480, 680]).  The copy step computes
    `src_col_end = -2`; under Python slice semantics the source slice keeps 3
    columns while the destination slice is empty, so the assignment raises
    ValueError instead of producing an all-nodata raster. -/
theorem C8_outside_scene_raises :
    pad_to_ref ⟨5, 5, fun _ _ => 7⟩ 480 400 40 40 0 400 10 10 0 =
      .error PyExc.valueError := by
  simp only [pad_to_ref, pad_col_offset, pad_row_offset, pySlice]
  norm_num
  intro h
  exact absurd h (by decide)

/-- C2 counterexample: with `vmin = vmax = 0` a frame-normalization call that
    has a previous frame does not fail at all: it silently performs the
    zero-width division and produces a frame. -/
theorem C2_counterexample :
    (convertFrame ((fun _ => some (1 : ℚ)) : Fin 1 → Option ℚ) none 0 0
        (some fun _ => 5)).isOk = true := by
  rfl

/-- C2 (amended): when `vmax = vmin` there is no dedicated degenerate-range
    check.  The first call (no previous frame) fails — with the incidental
    ValueError that `int()` raises on the NaN bootstrap border value, after the
    ocean-pixel division has already been evaluated — while every call with a
    previous frame silently produces a frame. -/
theorem C2_degenerate_behavior {ι : Type} [Fintype ι] (arr : ι → Option ℚ)
    (lm : Option (ι → ℤ)) (vmin vmax : ℚ) (hd : vmax = vmin) (pr : ι → ℤ) :
    convertFrame arr lm vmin vmax none = .error PyExc.valueError ∧
      (convertFrame arr lm vmin vmax (some pr)).isOk = true := by
  constructor
  · simp only [convertFrame]
    rw [if_pos (by rw [hd, sub_self])]
  · rfl

/-- C2 witness: the amended statement evaluated at `vmin = vmax = 0` on a
    one-pixel frame. -/
theorem C2_degenerate_behavior_witness :
    (0 : ℚ) = 0 ∧
      (convertFrame ((fun _ => some (1 : ℚ)) : Fin 1 → Option ℚ) none 0 0 none =
          .error PyExc.valueError ∧
        (convertFrame ((fun _ => some (1 : ℚ)) : Fin 1 → Option ℚ) none 0 0
            (some fun _ => 5)).isOk = true) :=
  ⟨rfl, C2_degenerate_behavior _ none 0 0 rfl _⟩

/-- C3: evaluating the statistics pooling at a 2-pixel scene with values
    `[10, 20]` and landmask `[0, 1]` (pixel 0 ocean, pixel 1 land): the code
    pools exactly the land pixel's value `20` — it keeps pixels with landmask
    value 1 and drops the ocean pixel — the opposite of the claimed
    "landmask 0 (ocean) pooled, landmask 1 (land) excluded". -/
theorem C3_stats_pools_land :
    pooledVals [((fun p => if p = 0 then some 10 else some 20) : Fin 2 → Option ℚ)]
        (some fun p => if p = 0 then 0 else 1) = ({20} : Multiset ℚ) ∧
      pooledVals [((fun p => if p = 0 then some 10 else some 20) : Fin 2 → Option ℚ)]
        (some fun p => if p = 0 then 0 else 1) ≠ ({10} : Multiset ℚ) := by
  decide

/-- C4: for a nonempty list of scene bounds and positive resolution, the grid's
    origin x and top y are exact integer multiples of the resolution, and the
    snapped extent contains every input scene's bounds. -/
theorem C4_grid_snapping (infos : List SceneBounds) (resolution : ℚ)
    (hne : infos ≠ []) (hres : 0 < resolution) :
    (∃ k : ℤ, (build_reference_grid infos resolution).min_left = (k : ℚ) * resolution) ∧
    (∃ k : ℤ, (build_reference_grid infos resolution).max_top = (k : ℚ) * resolution) ∧
    ∀ b ∈ infos,
      (build_reference_grid infos resolution).min_left ≤ b.left ∧
      b.right ≤ (build_reference_grid infos resolution).max_right ∧
      (build_reference_grid infos resolution).min_bottom ≤ b.bottom ∧
      b.top ≤ (build_reference_grid infos resolution).max_top := by
  have hfloor : ∀ m : ℚ, ((⌊m / resolution⌋ : ℤ) : ℚ) * resolution ≤ m := by
    intro m
    calc ((⌊m / resolution⌋ : ℤ) : ℚ) * resolution ≤ m / resolution * resolution :=
          mul_le_mul_of_nonneg_right (Int.floor_le _) hres.le
      _ = m := div_mul_cancel₀ m hres.ne'
  have hceil : ∀ m : ℚ, m ≤ ((⌈m / resolution⌉ : ℤ) : ℚ) * resolution := by
    intro m
    calc m = m / resolution * resolution := (div_mul_cancel₀ m hres.ne').symm
      _ ≤ ((⌈m / resolution⌉ : ℤ) : ℚ) * resolution :=
          mul_le_mul_of_nonneg_right (Int.le_ceil _) hres.le
  refine ⟨⟨_, rfl⟩, ⟨_, rfl⟩, ?_⟩
  intro b hb
  refine ⟨?_, ?_, ?_, ?_⟩
  · exact (hfloor _).trans (listMin_le_of_mem (List.mem_map_of_mem SceneBounds.left hb))
  · exact (le_listMax_of_mem (List.mem_map_of_mem SceneBounds.right hb)).trans (hceil _)
  · exact (hfloor _).trans (listMin_le_of_mem (List.mem_map_of_mem SceneBounds.bottom hb))
  · exact (le_listMax_of_mem (List.mem_map_of_mem SceneBounds.top hb)).trans (hceil _)

/-- C4 witness: the statement evaluated at one scene with bounds
    `(1, 2, 3, 4)` and resolution 10. -/
theorem C4_grid_snapping_witness :
    (([(⟨1, 2, 3, 4⟩ : SceneBounds)] ≠ []) ∧ (0 : ℚ) < 10) ∧
      ((∃ k : ℤ, (build_reference_grid [⟨1, 2, 3, 4⟩] 10).min_left = (k : ℚ) * 10) ∧
        (∃ k : ℤ, (build_reference_grid [⟨1, 2, 3, 4⟩] 10).max_top = (k : ℚ) * 10) ∧
        ∀ b ∈ [(⟨1, 2, 3, 4⟩ : SceneBounds)],
          (build_reference_grid [⟨1, 2, 3, 4⟩] 10).min_left ≤ b.left ∧
          b.right ≤ (build_reference_grid [⟨1, 2, 3, 4⟩] 10).max_right ∧
          (build_reference_grid [⟨1, 2, 3, 4⟩] 10).min_bottom ≤ b.bottom ∧
          b.top ≤ (build_reference_grid [⟨1, 2, 3, 4⟩] 10).max_top) :=
  ⟨⟨List.cons_ne_nil _ _, by norm_num⟩,
    C4_grid_snapping _ 10 (List.cons_ne_nil _ _) (by norm_num)⟩

/-! ## Claims C10 and C1 -/

theorem validVals_eq_zero {ι : Type} [Fintype ι] {arr : ι → Option ℚ}
    (lm : Option (ι → ℤ)) (hz : ∀ p, arr p = none) : validVals arr lm = 0 := by
  rw [Multiset.eq_zero_iff_forall_not_mem]
  intro x hx
  rw [validVals, Multiset.mem_filterMap] at hx
  obtain ⟨p, _, hp⟩ := hx
  simp [mask_o, hz p] at hp

/-- C10: when the first frame has no ocean_valid pixel at all (with no
    landmask, every pixel NaN), the conversion does not fail: the bootstrap
    border is computed with 0 in place of the median, and that byte —
    `int(255 * (clip(0, vmin, vmax) - vmin) / (vmax - vmin))` — fills every
    (nodata) pixel of the frame.  A nondegenerate range is required, since with
    `vmax = vmin` the first call raises (see C2). -/
theorem C10_empty_first_frame {ι : Type} [Fintype ι] (arr : ι → Option ℚ)
    (vmin vmax : ℚ) (hz : ∀ p, arr p = none) (hv : vmax ≠ vmin) :
    convertFrame arr none vmin vmax none =
      .ok fun _ => pyTrunc (255 * (npClip 0 vmin vmax - vmin) / (vmax - vmin)) := by
  have hdz : ¬(vmax - vmin = 0) := sub_ne_zero.mpr hv
  simp only [convertFrame]
  rw [if_neg hdz]
  refine congrArg Except.ok (funext fun p => ?_)
  have h0 : validVals arr (none : Option (ι → ℤ)) = 0 := validVals_eq_zero none hz
  have hborder : bootstrapBorder arr none vmin vmax =
      pyTrunc (255 * (npClip 0 vmin vmax - vmin) / (vmax - vmin)) := by
    show pyTrunc ((npClip (if validVals arr none = 0 then 0
        else npMedian (validVals arr none)) vmin vmax - vmin) / (vmax - vmin) * 255) = _
    rw [h0, if_pos rfl]
    congr 1
    ring
  simp [mask_o, mask_b, hz p, hborder]

/-- C10 witness: the statement evaluated on a one-pixel all-NaN frame with
    `vmin = 0`, `vmax = 2`. -/
theorem C10_empty_first_frame_witness :
    ((∀ p : Fin 1, ((fun _ => none) : Fin 1 → Option ℚ) p = none) ∧ (2 : ℚ) ≠ 0) ∧
      convertFrame ((fun _ => none) : Fin 1 → Option ℚ) none 0 2 none =
        .ok fun _ => pyTrunc (255 * (npClip 0 0 2 - 0) / (2 - 0)) :=
  ⟨⟨fun _ => rfl, by norm_num⟩, C10_empty_first_frame _ 0 2 (fun _ => rfl) (by norm_num)⟩

theorem convertFrame_not_masked {ι : Type} [Fintype ι] {arr : ι → Option ℚ}
    {lm : Option (ι → ℤ)} {vmin vmax : ℚ} {prev : Option (ι → ℤ)} {out : ι → ℤ}
    (hok : convertFrame arr lm vmin vmax prev = .ok out) {p : ι}
    (ho : mask_o arr lm p = false) (hb : mask_b arr lm p = false) : out p = 0 := by
  cases prev with
  | some pr =>
    simp only [convertFrame] at hok
    injection hok with hok
    subst hok
    simp [ho, hb]
  | none =>
    simp only [convertFrame] at hok
    by_cases hd : vmax - vmin = 0
    · rw [if_pos hd] at hok
      cases hok
    · rw [if_neg hd] at hok
      injection hok with hok
      subst hok
      simp [ho, hb]

theorem convertFrame_inherits {ι : Type} [Fintype ι] {arr : ι → Option ℚ}
    {lm : Option (ι → ℤ)} {vmin vmax : ℚ} {pr out : ι → ℤ} {p : ι}
    (hb : mask_b arr lm p = true)
    (hok : convertFrame arr lm vmin vmax (some pr) = .ok out) : out p = pr p := by
  have hnone : arr p = none :=
    Option.isNone_iff_eq_none.mp (Bool.and_elim_left hb)
  have ho : mask_o arr lm p = false := by
    simp [mask_o, hnone]
  simp only [convertFrame] at hok
  injection hok with hok
  subst hok
  simp [ho, hb]

theorem convertFrame_land_zero {ι : Type} [Fintype ι] {arr : ι → Option ℚ}
    {vmin vmax : ℚ} {prev : Option (ι → ℤ)} {out : ι → ℤ} {m : ι → ℤ} {p : ι}
    (hm : m p ≠ 0)
    (hok : convertFrame arr (some m) vmin vmax prev = .ok out) : out p = 0 := by
  have hbeq : (m p == 0) = false := beq_eq_false_iff_ne.mpr hm
  have ho : mask_o arr (some m) p = false := by
    simp [mask_o, hbeq]
  have hb : mask_b arr (some m) p = false := by
    simp [mask_b, hbeq]
  exact convertFrame_not_masked hok ho hb

theorem processSeriesGo_spec {ι : Type} [Fintype ι] (lm : Option (ι → ℤ))
    (vmin vmax : ℚ) :
    ∀ (fs : List (ι → Option ℚ)) (prev : Option (ι → ℤ)) (outs : List (ι → ℤ)),
      processSeriesGo lm vmin vmax fs prev = .ok outs →
      outs.length = fs.length ∧
        ∀ i < fs.length,
          convertFrame (fs.getD i (fun _ => none)) lm vmin vmax
              (if i = 0 then prev else some (outs.getD (i - 1) (fun _ => 0))) =
            .ok (outs.getD i (fun _ => 0))
  | [], prev, outs => by
    intro h
    simp only [processSeriesGo] at h
    injection h with h
    subst h
    exact ⟨rfl, fun i hi => absurd hi (Nat.not_lt_zero i)⟩
  | f :: fs, prev, outs => by
    intro h
    simp only [processSeriesGo] at h
    split at h
    · cases h
    · rename_i out hc
      split at h
      · cases h
      · rename_i outs' hg
        injection h with h
        subst h
        obtain ⟨hlen, hstep⟩ := processSeriesGo_spec lm vmin vmax fs (some out) outs' hg
        refine ⟨by simpa using hlen, ?_⟩
        intro i hi
        match i with
        | 0 => simpa using hc
        | Nat.succ j =>
          have hj : j < fs.length := by simpa using hi
          have hstepj := hstep j hj
          simp only [List.getD_cons_succ]
          cases j with
          | zero => simpa using hstepj
          | succ k => simpa using hstepj

/-- C1: temporal inheritance over the whole series: when the normalization
    sequence succeeds, every frame after the first agrees with the immediately
    preceding output frame at every pixel that is invalid in the current scene
    (NaN, or marked land by the landmask).  For NaN ocean pixels the value is
    copied from the previous frame; for land pixels both frames hold the
    canvas zero, so the equality holds there as well. -/
theorem C1_temporal_inheritance {ι : Type} [Fintype ι]
    (frames : List (ι → Option ℚ)) (lm : Option (ι → ℤ)) (vmin vmax : ℚ)
    (outs : List (ι → ℤ)) (i : ℕ) (p : ι)
    (hok : processSeries frames lm vmin vmax = .ok outs)
    (hi : i + 1 < outs.length)
    (hinv : (frames.getD (i + 1) (fun _ => none)) p = none ∨
      ∃ m, lm = some m ∧ m p = 1) :
    (outs.getD (i + 1) (fun _ => 0)) p = (outs.getD i (fun _ => 0)) p := by
  obtain ⟨hlen, hstep⟩ := processSeriesGo_spec lm vmin vmax frames none outs hok
  have hif : i + 1 < frames.length := hlen ▸ hi
  have hcur := hstep (i + 1) hif
  rw [if_neg (Nat.succ_ne_zero i)] at hcur
  simp only [Nat.add_sub_cancel] at hcur
  have hprevok := hstep i (Nat.lt_of_succ_lt hif)
  rcases hinv with hnan | ⟨m, hm, hmp⟩
  · rcases hlm : lm with _ | m
    · subst hlm
      have hb : mask_b (frames.getD (i + 1) (fun _ => none)) none p = true := by
        simp [mask_b, hnan]
      exact convertFrame_inherits hb hcur
    · subst hlm
      by_cases hmp0 : m p = 0
      · have hb : mask_b (frames.getD (i + 1) (fun _ => none)) (some m) p = true := by
          simp [mask_b, hnan, hmp0]
        exact convertFrame_inherits hb hcur
      · rw [convertFrame_land_zero hmp0 hcur, convertFrame_land_zero hmp0 hprevok]
  · subst hm
    have hmp0 : m p ≠ 0 := by
      rw [hmp]
      exact one_ne_zero
    rw [convertFrame_land_zero hmp0 hcur, convertFrame_land_zero hmp0 hprevok]

/-- C1 witness: a two-frame series on a one-pixel grid with `vmin = 0`,
    `vmax = 2`; the first frame's value 1 scales to byte 127, the second frame
    is all NaN and inherits that byte. -/
theorem C1_temporal_inheritance_witness :
    (processSeries [((fun _ => some (1 : ℚ)) : Fin 1 → Option ℚ), fun _ => none]
          none 0 2 =
        .ok ([(fun _ => (127 : ℤ)), fun _ => (127 : ℤ)] : List (Fin 1 → ℤ)) ∧
      0 + 1 < ([(fun _ => (127 : ℤ)), fun _ => (127 : ℤ)] : List (Fin 1 → ℤ)).length) ∧
      ((([(fun _ => (127 : ℤ)), fun _ => (127 : ℤ)] : List (Fin 1 → ℤ)).getD (0 + 1)
          (fun _ => 0)) (0 : Fin 1)) =
        ((([(fun _ => (127 : ℤ)), fun _ => (127 : ℤ)] : List (Fin 1 → ℤ)).getD 0
          (fun _ => 0)) (0 : Fin 1)) := by
  have hg0 : convertFrame ((fun _ => some (1 : ℚ)) : Fin 1 → Option ℚ) none 0 2 none =
      .ok (fun _ => (127 : ℤ)) := by
    simp only [convertFrame]
    rw [if_neg (by norm_num : ¬((2 : ℚ) - 0 = 0))]
    refine congrArg Except.ok (funext fun p => ?_)
    norm_num [mask_o, mask_b, oceanByte, castUint8, pyTrunc, npClip, min_def, max_def]
  have hg1 : convertFrame ((fun _ => none) : Fin 1 → Option ℚ) none 0 2
      (some fun _ => (127 : ℤ)) = .ok (fun _ => (127 : ℤ)) := by
    simp only [convertFrame]
    refine congrArg Except.ok (funext fun p => ?_)
    norm_num [mask_o, mask_b]
  have hok : processSeries [((fun _ => some (1 : ℚ)) : Fin 1 → Option ℚ), fun _ => none]
      none 0 2 = .ok ([(fun _ => (127 : ℤ)), fun _ => (127 : ℤ)] : List (Fin 1 → ℤ)) := by
    simp only [processSeries, processSeriesGo, hg0, hg1]
  exact ⟨⟨hok, by decide⟩,
    C1_temporal_inheritance _ none 0 2 _ 0 0 hok (by decide) (Or.inl rfl)⟩

/-! ## Claim C9 -/

theorem sorted_pool :
    List.Sorted (· ≤ ·) ((List.range 1000).map fun i : ℕ => ((i : ℚ) + 1)) := by
  refine List.Pairwise.map _ ?_ (List.sorted_lt_range 1000)
  intro a b hab
  have h : (a : ℚ) < (b : ℚ) := by exact_mod_cast hab
  exact (add_lt_add_right h 1).le

theorem sort_pool :
    Multiset.sort (· ≤ ·) (↑((List.range 1000).map fun i : ℕ => ((i : ℚ) + 1)) : Multiset ℚ) =
      (List.range 1000).map fun i : ℕ => ((i : ℚ) + 1) :=
  List.eq_of_perm_of_sorted (Multiset.coe_eq_coe.mp (Multiset.sort_eq _ _))
    (Multiset.sort_sorted _ _) sorted_pool

theorem getD_pool (k : ℕ) (hk : k < 1000) :
    ((List.range 1000).map fun i : ℕ => ((i : ℚ) + 1)).getD k 0 = (k : ℚ) + 1 := by
  rw [List.getD_eq_getElem?_getD, List.getElem?_map, List.getElem?_range hk]
  rfl

theorem percentile_pool_low :
    npPercentile (↑((List.range 1000).map fun i : ℕ => ((i : ℚ) + 1))) 0.135 =
      46973 / 20000 := by
  have hlen : ((List.range 1000).map fun i : ℕ => ((i : ℚ) + 1)).length = 1000 := by
    simp
  simp only [npPercentile, sort_pool, hlen]
  rw [if_neg (by norm_num)]
  have hq : (0.135 : ℚ) / 100 * (((1000 : ℕ) : ℚ) - 1) = 26973 / 20000 := by norm_num
  rw [hq]
  have hfl : ⌊(26973 / 20000 : ℚ)⌋ = 1 := by
    rw [Int.floor_eq_iff]
    norm_num
  have hcl : ⌈(26973 / 20000 : ℚ)⌉ = 2 := by
    rw [Int.ceil_eq_iff]
    norm_num
  rw [hfl, hcl]
  rw [show ((1 : ℤ).toNat) = 1 from rfl, show ((2 : ℤ).toNat) = 2 from rfl]
  rw [getD_pool 1 (by norm_num), getD_pool 2 (by norm_num)]
  norm_num

theorem percentile_pool_high :
    npPercentile (↑((List.range 1000).map fun i : ℕ => ((i : ℚ) + 1))) 99.865 =
      19973027 / 20000 := by
  have hlen : ((List.range 1000).map fun i : ℕ => ((i : ℚ) + 1)).length = 1000 := by
    simp
  simp only [npPercentile, sort_pool, hlen]
  rw [if_neg (by norm_num)]
  have hq : (99.865 : ℚ) / 100 * (((1000 : ℕ) : ℚ) - 1) = 19953027 / 20000 := by norm_num
  rw [hq]
  have hfl : ⌊(19953027 / 20000 : ℚ)⌋ = 997 := by
    rw [Int.floor_eq_iff]
    norm_num
  have hcl : ⌈(19953027 / 20000 : ℚ)⌉ = 998 := by
    rw [Int.ceil_eq_iff]
    norm_num
  rw [hfl, hcl]
  rw [show ((997 : ℤ).toNat) = 997 from rfl, show ((998 : ℤ).toNat) = 998 from rfl]
  rw [getD_pool 997 (by norm_num), getD_pool 998 (by norm_num)]
  norm_num

/-- C9 counterexample: pooling the values 1..1000 and taking the 0.135th
    percentile with numpy's linear-interpolation method yields exactly
    46973/20000 = 2.34865, which is not within 0.5 of the claimed 1.35. -/
theorem C9_counterexample :
    npPercentile (↑((List.range 1000).map fun i : ℕ => ((i : ℚ) + 1))) 0.135 =
        46973 / 20000 ∧
      ¬|npPercentile (↑((List.range 1000).map fun i : ℕ => ((i : ℚ) + 1))) 0.135 - 1.35| ≤
        1 / 2 := by
  refine ⟨percentile_pool_low, ?_⟩
  rw [percentile_pool_low]
  have h : (46973 / 20000 : ℚ) - 1.35 = 19973 / 20000 := by norm_num
  rw [h, abs_of_pos (by norm_num : (0 : ℚ) < 19973 / 20000)]
  norm_num

/-- C9 (amended): with the implementation's percentile method the pooled values
    1..1000 yield vmin = 46973/20000 = 2.34865 (≈ 2.35, not ≈ 1.35) and
    vmax = 19973027/20000 = 998.65135 (≈ 998.65 as claimed). -/
theorem C9_percentile_values :
    npPercentile (↑((List.range 1000).map fun i : ℕ => ((i : ℚ) + 1))) 0.135 =
        46973 / 20000 ∧
      npPercentile (↑((List.range 1000).map fun i : ℕ => ((i : ℚ) + 1))) 99.865 =
        19973027 / 20000 :=
  ⟨percentile_pool_low, percentile_pool_high⟩

end DeepSeepNet
